import Mathlib

/-!
Verification of the stock screening pipeline in src/screener.py.

Prices, percent changes and market values are modelled as rationals.
A snapshot row's numeric field that failed coercion is modelled as
Option.none; a comparison against a missing value evaluates false,
mirroring pandas semantics for NaN comparisons.

A fetched historical series is an Option (List DailyBar): none models
a fetch that failed, raised, or returned no frame at all.
-/

/-- One security's live snapshot row after column normalization. -/
structure QuoteRow where
  code : String
  name : String
  price : Option ℚ
  pe : Option ℚ
  total_mv : Option ℚ
  pct_chg : Option ℚ
deriving DecidableEq, Inhabited

/-- One trading day of one security's daily history. -/
structure DailyBar where
  date : ℕ
  open_ : ℚ
  high : ℚ
  low : ℚ
  close : ℚ
  pct_chg : ℚ
  volume : ℚ
deriving DecidableEq, Inhabited

/-- The output record of a successful pattern evaluation. -/
structure ScreenHit where
  code : String
  name : String
  price : ℚ
  limit_up_count : ℕ
  interval_increase : ℚ
  position_rank : ℚ
deriving DecidableEq, Inhabited

/-- A comparison of a possibly-missing value against a threshold:
false when the value is missing (pandas NaN comparison semantics). -/
def optLe (x : Option ℚ) (c : ℚ) : Bool :=
  match x with
  | none => false
  | some v => decide (v ≤ c)

/-- Strict greater-than against a threshold; false when missing. -/
def optGt (x : Option ℚ) (c : ℚ) : Bool :=
  match x with
  | none => false
  | some v => decide (c < v)

/-- Market-cap ceiling used by the basic filter: 200 * 10^8. -/
def market_cap_limit : ℚ := 200 * 100000000

/-- StockScreener.filter_basics: return the frame unchanged when empty,
otherwise keep rows with price <= 20, then pe > 0, then
total_mv <= market_cap_limit, each step preserving row order. -/
def filter_basics (df : List QuoteRow) : List QuoteRow :=
  if df.isEmpty then df
  else
    ((df.filter fun r => optLe r.price 20).filter fun r =>
        optGt r.pe 0).filter fun r => optLe r.total_mv market_cap_limit

/-- Ascending-date comparison on daily bars, the sort key of
df.sort_values on the date column. -/
def dateLe (a b : DailyBar) : Prop := a.date ≤ b.date

instance : DecidableRel dateLe := fun a b => inferInstanceAs (Decidable (a.date ≤ b.date))

instance : IsTotal DailyBar dateLe := ⟨fun a b => Nat.le_total a.date b.date⟩

instance : IsTrans DailyBar dateLe := ⟨fun _ _ _ h1 h2 => Nat.le_trans h1 h2⟩

/-- The fetched frame sorted by ascending date (df.sort_values). -/
def sortedBars (df : List DailyBar) : List DailyBar :=
  List.insertionSort dateLe df

/-- df.tail(60): the most recent 60 bars of the sorted series. -/
def last60 (df : List DailyBar) : List DailyBar :=
  (sortedBars df).drop ((sortedBars df).length - 60)

/-- df.iloc[-1]: the latest bar of the sorted series. -/
def lastBar (df : List DailyBar) : DailyBar :=
  (sortedBars df).getLastD default

/-- current_price = df.iloc[-1]['close']. -/
def currentClose (df : List DailyBar) : ℚ :=
  (lastBar df).close

/-- price_60_days_ago = df_60.iloc[0]['close']. -/
def startClose (df : List DailyBar) : ℚ :=
  ((last60 df).headD default).close

/-- len(df_60[df_60['pct_chg'] > 9.5]): bars of the recent window whose
daily percent change exceeds 9.5. -/
def limitUpCount (df : List DailyBar) : ℕ :=
  ((last60 df).filter fun b => decide ((19 : ℚ)/2 < b.pct_chg)).length

/-- interval_increase = (current_price - price_60_days_ago) / price_60_days_ago. -/
def intervalIncrease (df : List DailyBar) : ℚ :=
  (currentClose df - startClose df) / startClose df

/-- rolling(n).mean().iloc[-1]: the mean of the last n values. -/
def rollingMeanLast (n : ℕ) (l : List ℚ) : ℚ :=
  (l.drop (l.length - n)).sum / (n : ℚ)

/-- The n-day simple moving average of close at the latest bar,
computed over the full sorted series. -/
def ma (n : ℕ) (df : List DailyBar) : ℚ :=
  rollingMeanLast n ((sortedBars df).map DailyBar.close)

/-- Maximum of a list of rationals (pandas Series.max on the column). -/
def listMax (l : List ℚ) : ℚ :=
  match l with
  | [] => 0
  | h :: t => t.foldl max h

/-- Minimum of a list of rationals (pandas Series.min on the column). -/
def listMin (l : List ℚ) : ℚ :=
  match l with
  | [] => 0
  | h :: t => t.foldl min h

/-- year_high = df['high'].max() over the full sorted series. -/
def yearHigh (df : List DailyBar) : ℚ :=
  listMax ((sortedBars df).map DailyBar.high)

/-- year_low = df['low'].min() over the full sorted series. -/
def yearLow (df : List DailyBar) : ℚ :=
  listMin ((sortedBars df).map DailyBar.low)

/-- position_rank = (current - low) / (high - low) when the annual range
has nonzero width, else 0. -/
def positionRank (df : List DailyBar) : ℚ :=
  if yearHigh df ≠ yearLow df then
    (currentClose df - yearLow df) / (yearHigh df - yearLow df)
  else 0

/-- StockScreener.check_technical_pattern: absent when the fetch failed
or the series is shorter than 60 bars, then the four gates in source
order — recent rally, muted interval gain, bullish moving-average
ordering, depressed annual position — each returning absent on failure;
on success a ScreenHit with the percentage-scaled fields. -/
def checkTechnicalPattern (code name : String) (fetched : Option (List DailyBar)) :
    Option ScreenHit :=
  match fetched with
  | none => none
  | some df =>
    if df.length < 60 then none
    else if limitUpCount df = 0 then none
    else if intervalIncrease df > 1/2 then none
    else if ¬ (ma 5 df > ma 10 df ∧ ma 10 df > ma 20 df) then none
    else if positionRank df > 1/2 then none
    else some { code := code, name := name, price := currentClose df,
                limit_up_count := limitUpCount df,
                interval_increase := intervalIncrease df * 100,
                position_rank := positionRank df * 100 }

/-- StockScreener.run_screen, parametrized by the snapshot fetch result
and the per-code historical fetch: abort with an empty result when the
snapshot is empty, otherwise basic-filter, extract (code, name)
candidates and collect every non-absent pattern evaluation. -/
def runScreen (snapshot : List QuoteRow) (fetch : String → Option (List DailyBar)) :
    List ScreenHit :=
  if snapshot.isEmpty then []
  else
    ((filter_basics snapshot).map fun r => (r.code, r.name)).filterMap
      fun c => checkTechnicalPattern c.1 c.2 (fetch c.1)

/-- Scenario B of the spec: a 60-bar window with exactly one bar of
pct_chg = 10.2, interval return 20 percent (close moves 10 to 12),
MA5 = 11 > MA10 = 10 > MA20 = 9 and position rank 30 percent
(annual range 6 to 26 around the latest close 12). -/
def scenarioB : List DailyBar :=
  (List.range 60).map fun i =>
    { date := i, open_ := 10, high := 26, low := 6,
      close := if i = 0 then 10 else if i < 40 then 9 else if i < 50 then 8
               else if i < 55 then 9 else if i = 55 then 10
               else if i < 59 then 11 else 12,
      pct_chg := if i = 30 then 51/5 else 0, volume := 0 }

/-- Scenario C of the spec: scenario B with the window-opening close
lowered to 7.5, so the interval return becomes 60 percent. -/
def scenarioC : List DailyBar :=
  (List.range 60).map fun i =>
    { date := i, open_ := 10, high := 26, low := 20/2 - 5/2,
      close := if i = 0 then 15/2 else if i < 40 then 9 else if i < 50 then 8
               else if i < 55 then 9 else if i = 55 then 10
               else if i < 59 then 11 else 12,
      pct_chg := if i = 30 then 51/5 else 0, volume := 0 }

/-- Scenario B with every bar's low raised to 20, above the latest
close 12: the malformed-bar series whose position rank is negative. -/
def scenarioLowBreak : List DailyBar :=
  (List.range 60).map fun i =>
    { date := i, open_ := 10, high := 26, low := 20,
      close := if i = 0 then 10 else if i < 40 then 9 else if i < 50 then 8
               else if i < 55 then 9 else if i = 55 then 10
               else if i < 59 then 11 else 12,
      pct_chg := if i = 30 then 51/5 else 0, volume := 0 }

/-- Scenario B with every daily percent change cleared to zero: no bar
of the window passes the rally threshold. -/
def scenarioNoRally : List DailyBar :=
  (List.range 60).map fun i =>
    { date := i, open_ := 10, high := 26, low := 6,
      close := if i = 0 then 10 else if i < 40 then 9 else if i < 50 then 8
               else if i < 55 then 9 else if i = 55 then 10
               else if i < 59 then 11 else 12,
      pct_chg := 0, volume := 0 }

/-- On a series of at least 60 bars, the evaluator is the four-gate
conjunction: it yields the percentage-scaled hit when the rally count
is positive, the interval gain is at most one half, the moving
averages are strictly ordered and the position rank is at most one
half, and absent otherwise. -/
theorem checkTechnicalPattern_eq (code name : String) (df : List DailyBar)
    (h : 60 ≤ df.length) :
    checkTechnicalPattern code name (some df) =
      if 0 < limitUpCount df ∧ intervalIncrease df ≤ 1/2 ∧
         (ma 5 df > ma 10 df ∧ ma 10 df > ma 20 df) ∧ positionRank df ≤ 1/2
      then some { code := code, name := name, price := currentClose df,
                  limit_up_count := limitUpCount df,
                  interval_increase := intervalIncrease df * 100,
                  position_rank := positionRank df * 100 }
      else none := by
  simp only [checkTechnicalPattern]
  rw [if_neg (Nat.not_lt.mpr h)]
  by_cases h1 : limitUpCount df = 0
  · rw [if_pos h1, if_neg]
    rintro ⟨hp, -⟩
    omega
  · rw [if_neg h1]
    by_cases h2 : intervalIncrease df > 1/2
    · rw [if_pos h2, if_neg]
      rintro ⟨-, hle, -⟩
      exact absurd h2 (not_lt.mpr hle)
    · rw [if_neg h2]
      by_cases h3 : ma 5 df > ma 10 df ∧ ma 10 df > ma 20 df
      · rw [if_neg (not_not_intro h3)]
        by_cases h4 : positionRank df > 1/2
        · rw [if_pos h4, if_neg]
          rintro ⟨-, -, -, hle⟩
          exact absurd h4 (not_lt.mpr hle)
        · rw [if_neg h4, if_pos]
          exact ⟨Nat.pos_of_ne_zero h1, not_lt.mp h2, h3, not_lt.mp h4⟩
      · rw [if_pos h3, if_neg]
        rintro ⟨-, -, hma, -⟩
        exact h3 hma

set_option maxRecDepth 100000 in
unseal Rat.mul Rat.inv Rat.add Rat.sub in
/-- C1: check_technical_pattern returns absent whenever the fetched
series is unavailable or shorter than 60 bars; on a series of at least
60 bars it returns a ScreenHit exactly when all four gates pass (a
rally bar with pct_chg above 9.5 in the last 60 bars, interval return
at most 50 percent, MA5 above MA10 above MA20 at the latest bar, and
position rank at most one half), the hit carrying interval_increase
and position_rank as percentages; the spec's scenario B yields exactly
one ScreenHit with limit_up_count = 1. -/
theorem C1_check_characterization :
    (∀ code name, checkTechnicalPattern code name none = none) ∧
    (∀ code name (df : List DailyBar), df.length < 60 →
        checkTechnicalPattern code name (some df) = none) ∧
    (∀ code name (df : List DailyBar), 60 ≤ df.length →
        checkTechnicalPattern code name (some df) =
          if 0 < limitUpCount df ∧ intervalIncrease df ≤ 1/2 ∧
             (ma 5 df > ma 10 df ∧ ma 10 df > ma 20 df) ∧ positionRank df ≤ 1/2
          then some { code := code, name := name, price := currentClose df,
                      limit_up_count := limitUpCount df,
                      interval_increase := intervalIncrease df * 100,
                      position_rank := positionRank df * 100 }
          else none) ∧
    checkTechnicalPattern "600000" "B" (some scenarioB) =
      some { code := "600000", name := "B", price := 12, limit_up_count := 1,
             interval_increase := 20, position_rank := 30 } := by
  refine ⟨fun code name => rfl, fun code name df hlt => ?_,
    checkTechnicalPattern_eq, by decide⟩
  simp only [checkTechnicalPattern]
  rw [if_pos hlt]

/-- Witness for C1: the short-series clause applied to the empty series. -/
theorem C1_witness : checkTechnicalPattern "600000" "B" (some []) = none :=
  C1_check_characterization.2.1 "600000" "B" [] (by decide)

/-- C4: on a fetched series of at least 60 bars in which no bar of the
most recent 60-bar window has pct_chg above 9.5, the evaluator is
absent, regardless of the other gates. -/
theorem C4_no_rally_absent (code name : String) (df : List DailyBar)
    (h : 60 ≤ df.length) (hn : ∀ b ∈ last60 df, b.pct_chg ≤ (19 : ℚ)/2) :
    checkTechnicalPattern code name (some df) = none := by
  have hcnt : limitUpCount df = 0 := by
    unfold limitUpCount
    rw [List.length_eq_zero, List.filter_eq_nil_iff]
    intro b hb
    simp [not_lt.mpr (hn b hb)]
  simp only [checkTechnicalPattern]
  rw [if_neg (Nat.not_lt.mpr h), if_pos hcnt]

set_option maxRecDepth 100000 in
unseal Rat.mul Rat.inv Rat.add Rat.sub in
/-- Witness for C4: the rally-free variant of scenario B is absent. -/
theorem C4_witness : checkTechnicalPattern "600000" "N" (some scenarioNoRally) = none :=
  C4_no_rally_absent "600000" "N" scenarioNoRally (by decide) (by decide)

set_option maxRecDepth 100000 in
unseal Rat.mul Rat.inv Rat.add Rat.sub in
/-- C5: on a fetched series of at least 60 bars whose interval return
from 60 bars ago to the latest close exceeds one half, the evaluator
is absent; the spec's scenario C (scenario B with interval return 60
percent) is absent. -/
theorem C5_interval_gate :
    (∀ code name (df : List DailyBar), 60 ≤ df.length →
        (1 : ℚ)/2 < intervalIncrease df →
        checkTechnicalPattern code name (some df) = none) ∧
    checkTechnicalPattern "600000" "C" (some scenarioC) = none := by
  refine ⟨fun code name df h hgt => ?_, by decide⟩
  rw [checkTechnicalPattern_eq code name df h, if_neg]
  rintro ⟨-, hle, -⟩
  exact absurd hgt (not_lt.mpr hle)

set_option maxRecDepth 100000 in
unseal Rat.mul Rat.inv Rat.add Rat.sub in
/-- Witness for C5: the interval clause applied to scenario C. -/
theorem C5_witness : checkTechnicalPattern "000002" "C" (some scenarioC) = none :=
  C5_interval_gate.1 "000002" "C" scenarioC (by decide) (by decide)

/-- C9: every ScreenHit produced by the evaluator has at least one
rally bar counted, an interval increase of at most 50 and a position
rank of at most 50, the percentage images of the gate conditions. -/
theorem C9_hit_invariants (code name : String) (fetched : Option (List DailyBar))
    (hit : ScreenHit) (h : checkTechnicalPattern code name fetched = some hit) :
    1 ≤ hit.limit_up_count ∧ hit.interval_increase ≤ 50 ∧ hit.position_rank ≤ 50 := by
  match fetched with
  | none => exact absurd h (by simp [checkTechnicalPattern])
  | some df =>
    by_cases hlen : df.length < 60
    · rw [show checkTechnicalPattern code name (some df) = none by
        simp only [checkTechnicalPattern]; rw [if_pos hlen]] at h
      cases h
    · rw [checkTechnicalPattern_eq code name df (Nat.le_of_not_lt hlen)] at h
      by_cases hc : 0 < limitUpCount df ∧ intervalIncrease df ≤ 1/2 ∧
          (ma 5 df > ma 10 df ∧ ma 10 df > ma 20 df) ∧ positionRank df ≤ 1/2
      · rw [if_pos hc] at h
        obtain ⟨h1, h2, -, h4⟩ := hc
        cases Option.some.inj h
        dsimp only
        refine ⟨by omega, by linarith, by linarith⟩
      · rw [if_neg hc] at h
        cases h

set_option maxRecDepth 100000 in
unseal Rat.mul Rat.inv Rat.add Rat.sub in
/-- Witness for C9: the invariants at the scenario B hit. -/
theorem C9_witness :
    1 ≤ (ScreenHit.mk "600000" "B" 12 1 20 30).limit_up_count ∧
    (ScreenHit.mk "600000" "B" 12 1 20 30).interval_increase ≤ 50 ∧
    (ScreenHit.mk "600000" "B" 12 1 20 30).position_rank ≤ 50 :=
  C9_hit_invariants "600000" "B" (some scenarioB)
    (ScreenHit.mk "600000" "B" 12 1 20 30) (by decide)

/-- The three sequential filter passes of filter_basics collapse into a
single pass over the conjunction of the three predicates. -/
theorem triple_filter (df : List QuoteRow) :
    ((df.filter fun r => optLe r.price 20).filter fun r =>
        optGt r.pe 0).filter (fun r => optLe r.total_mv market_cap_limit) =
      df.filter fun r => optLe r.price 20 && optGt r.pe 0 &&
        optLe r.total_mv market_cap_limit := by
  induction df with
  | nil => rfl
  | cons a t ih =>
    by_cases h1 : optLe a.price 20 = true <;>
      by_cases h2 : optGt a.pe 0 = true <;>
        by_cases h3 : optLe a.total_mv market_cap_limit = true <;>
          simp [List.filter_cons, h1, h2, h3, ih, -List.filter_filter]

/-- filter_basics is one filter by the conjunction of its three
row predicates. -/
theorem filter_basics_eq_filter (df : List QuoteRow) :
    filter_basics df =
      df.filter fun r => optLe r.price 20 && optGt r.pe 0 &&
        optLe r.total_mv market_cap_limit := by
  unfold filter_basics
  by_cases hd : df.isEmpty
  · rw [if_pos hd, List.isEmpty_iff.mp hd]
    rfl
  · rw [if_neg hd]
    exact triple_filter df

/-- C2: filter_basics keeps exactly the rows with price at most 20,
positive pe and total_mv at most 200 * 10^8, a missing value comparing
false; the output is an order-preserving subsequence of the input, its
length never exceeds the input length, and the empty snapshot maps to
the empty snapshot. -/
theorem C2_filter_basics_spec :
    (∀ df : List QuoteRow,
        filter_basics df = df.filter fun r =>
          optLe r.price 20 && optGt r.pe 0 && optLe r.total_mv market_cap_limit) ∧
    (∀ c : ℚ, optLe none c = false ∧ optGt none c = false) ∧
    (∀ df : List QuoteRow, (filter_basics df).Sublist df) ∧
    (∀ df : List QuoteRow, (filter_basics df).length ≤ df.length) ∧
    filter_basics [] = [] := by
  refine ⟨filter_basics_eq_filter, fun c => ⟨rfl, rfl⟩, fun df => ?_, fun df => ?_, rfl⟩
  · rw [filter_basics_eq_filter]
    exact List.filter_sublist df
  · rw [filter_basics_eq_filter]
    exact (List.filter_sublist df).length_le

/-- C7: filter_basics is idempotent on every snapshot. -/
theorem C7_filter_basics_idempotent (df : List QuoteRow) :
    filter_basics (filter_basics df) = filter_basics df := by
  rw [filter_basics_eq_filter df, filter_basics_eq_filter, List.filter_filter]
  simp only [Bool.and_self]

/-- Scenario A of the spec: a snapshot row with price 15, pe 12 and
total market value 5 * 10^9, which passes the basic filter. -/
def sampleRow : QuoteRow :=
  { code := "000001", name := "PA", price := some 15, pe := some 12,
    total_mv := some 5000000000, pct_chg := some 0 }

/-- C3: an evaluation failure, modelled as an unavailable fetched
series, is reported as absent by check_technical_pattern rather than
propagated; when every candidate's fetch fails, run_screen returns the
empty collection rather than raising. -/
theorem C3_errors_swallowed :
    (∀ code name, checkTechnicalPattern code name none = none) ∧
    (∀ (snapshot : List QuoteRow) (fetch : String → Option (List DailyBar)),
        (∀ c, fetch c = none) → runScreen snapshot fetch = []) := by
  refine ⟨fun code name => rfl, fun snapshot fetch hf => ?_⟩
  unfold runScreen
  by_cases hd : snapshot.isEmpty
  · rw [if_pos hd]
  · rw [if_neg hd, List.filterMap_eq_nil_iff]
    intro c hc
    rw [hf c.1]
    rfl

/-- Witness for C3: one passing candidate whose fetch always fails. -/
theorem C3_witness : runScreen [sampleRow] (fun _ => none) = [] :=
  C3_errors_swallowed.2 [sampleRow] (fun _ => none) (fun _ => rfl)

/-- C8: with an empty snapshot run_screen returns the empty collection,
and this is the only early abort: on any nonempty snapshot the run
proceeds to evaluate exactly the filtered candidates. -/
theorem C8_empty_snapshot :
    (∀ fetch, runScreen [] fetch = []) ∧
    (∀ (snapshot : List QuoteRow) (fetch : String → Option (List DailyBar)),
        snapshot ≠ [] →
        runScreen snapshot fetch =
          ((filter_basics snapshot).map fun r => (r.code, r.name)).filterMap
            fun c => checkTechnicalPattern c.1 c.2 (fetch c.1)) := by
  refine ⟨fun fetch => rfl, fun snapshot fetch hne => ?_⟩
  unfold runScreen
  rw [if_neg]
  rw [List.isEmpty_iff]
  exact hne

/-- Witness for C8: the nonempty-snapshot clause at a one-row snapshot. -/
theorem C8_witness :
    runScreen [sampleRow] (fun _ => none) =
      ((filter_basics [sampleRow]).map fun r => (r.code, r.name)).filterMap
        fun c => checkTechnicalPattern c.1 c.2 ((fun _ => none) c.1) :=
  C8_empty_snapshot.2 [sampleRow] (fun _ => none) (by decide)

/-- Folding min over a list never exceeds the initial accumulator. -/
theorem foldl_min_le_init (t : List ℚ) (a : ℚ) : t.foldl min a ≤ a := by
  induction t generalizing a with
  | nil => exact le_refl a
  | cons b t ih => exact le_trans (ih (min a b)) (min_le_left a b)

/-- Folding min over a list never exceeds any member. -/
theorem foldl_min_le_mem {x : ℚ} : ∀ (t : List ℚ) (a : ℚ), x ∈ t → t.foldl min a ≤ x := by
  intro t
  induction t with
  | nil => intro a hx; cases hx
  | cons b t ih =>
    intro a hx
    rcases List.mem_cons.mp hx with rfl | hmem
    · exact le_trans (foldl_min_le_init t (min a x)) (min_le_right a x)
    · exact ih (min a b) hmem

/-- listMin bounds every member from below. -/
theorem listMin_le {x : ℚ} {l : List ℚ} (hx : x ∈ l) : listMin l ≤ x := by
  cases l with
  | nil => cases hx
  | cons h t =>
    simp only [listMin]
    rcases List.mem_cons.mp hx with rfl | hmem
    · exact foldl_min_le_init t x
    · exact foldl_min_le_mem t h hmem

/-- Folding max over a list dominates the initial accumulator. -/
theorem init_le_foldl_max (t : List ℚ) (a : ℚ) : a ≤ t.foldl max a := by
  induction t generalizing a with
  | nil => exact le_refl a
  | cons b t ih => exact le_trans (le_max_left a b) (ih (max a b))

/-- Folding max over a list dominates every member. -/
theorem mem_le_foldl_max {x : ℚ} : ∀ (t : List ℚ) (a : ℚ), x ∈ t → x ≤ t.foldl max a := by
  intro t
  induction t with
  | nil => intro a hx; cases hx
  | cons b t ih =>
    intro a hx
    rcases List.mem_cons.mp hx with rfl | hmem
    · exact le_trans (le_max_right a x) (init_le_foldl_max t (max a x))
    · exact ih (max a b) hmem

/-- listMax bounds every member from above. -/
theorem le_listMax {x : ℚ} {l : List ℚ} (hx : x ∈ l) : x ≤ listMax l := by
  cases l with
  | nil => cases hx
  | cons h t =>
    simp only [listMax]
    rcases List.mem_cons.mp hx with rfl | hmem
    · exact init_le_foldl_max t x
    · exact mem_le_foldl_max t h hmem

/-- The default-padded last element of a nonempty list is a member. -/
theorem getLastD_mem {α : Type} (l : List α) (d : α) (h : l ≠ []) : l.getLastD d ∈ l := by
  cases l with
  | nil => exact absurd rfl h
  | cons a t =>
    rw [List.getLastD_cons]
    exact List.getLastD_mem_cons t a

/-- The latest bar belongs to the sorted series when the series is
nonempty. -/
theorem lastBar_mem {df : List DailyBar} (h : sortedBars df ≠ []) :
    lastBar df ∈ sortedBars df := by
  unfold lastBar
  exact getLastD_mem (sortedBars df) default h

/-- The annual low bounds every bar's low from below. -/
theorem yearLow_le_low {df : List DailyBar} {b : DailyBar} (hb : b ∈ sortedBars df) :
    yearLow df ≤ b.low := by
  unfold yearLow
  exact listMin_le (List.mem_map_of_mem DailyBar.low hb)

/-- The annual high bounds every bar's high from above. -/
theorem high_le_yearHigh {df : List DailyBar} {b : DailyBar} (hb : b ∈ sortedBars df) :
    b.high ≤ yearHigh df := by
  unfold yearHigh
  exact le_listMax (List.mem_map_of_mem DailyBar.high hb)

set_option maxRecDepth 100000 in
unseal Rat.mul Rat.inv Rat.add Rat.sub in
/-- C6 counterexample: on a 60-bar series whose latest close 12 sits
below every bar's low 20, all four gates pass and the returned
ScreenHit carries the negative position rank -400/3, outside [0, 100];
the claim that every hit's position_rank lies in [0, 100] fails. -/
theorem C6_counterexample :
    checkTechnicalPattern "600000" "L" (some scenarioLowBreak) =
      some { code := "600000", name := "L", price := 12, limit_up_count := 1,
             interval_increase := 20, position_rank := -400/3 } ∧
    (-400/3 : ℚ) < 0 := by
  constructor
  · decide
  · decide

/-- C6 amended: a hit's position_rank lies in [0, 100] provided the
latest bar of the sorted series has its close within its own low-high
range; a zero-width annual range defines the position as 0; and a
position above one half always evaluates to absent. -/
theorem C6_position_rank_bounds :
    (∀ code name (df : List DailyBar) (hit : ScreenHit),
        checkTechnicalPattern code name (some df) = some hit →
        (lastBar df).low ≤ (lastBar df).close →
        (lastBar df).close ≤ (lastBar df).high →
        0 ≤ hit.position_rank ∧ hit.position_rank ≤ 100) ∧
    (∀ df : List DailyBar, yearHigh df = yearLow df → positionRank df = 0) ∧
    (∀ code name (df : List DailyBar), 60 ≤ df.length →
        (1 : ℚ)/2 < positionRank df →
        checkTechnicalPattern code name (some df) = none) := by
  refine ⟨fun code name df hit h hlow hhigh => ?_, fun df heq => ?_,
    fun code name df h hgt => ?_⟩
  · have hlen : ¬ df.length < 60 := by
      intro hl
      rw [show checkTechnicalPattern code name (some df) = none by
        simp only [checkTechnicalPattern]; rw [if_pos hl]] at h
      cases h
    have h0 : 0 ≤ positionRank df := by
      unfold positionRank
      by_cases heq : yearHigh df = yearLow df
      · rw [if_neg (not_not_intro heq)]
      · rw [if_pos heq]
        have hne : sortedBars df ≠ [] := by
          intro hnil
          have hl := (List.perm_insertionSort dateLe df).length_eq
          rw [show List.insertionSort dateLe df = sortedBars df from rfl, hnil] at hl
          simp at hl
          omega
        have hmem := lastBar_mem hne
        have hyl : yearLow df ≤ currentClose df :=
          le_trans (yearLow_le_low hmem) hlow
        have hyh : currentClose df ≤ yearHigh df :=
          le_trans hhigh (high_le_yearHigh hmem)
        have hlt : yearLow df < yearHigh df :=
          lt_of_le_of_ne (le_trans hyl hyh) (Ne.symm heq)
        exact div_nonneg (by linarith) (by linarith)
    rw [checkTechnicalPattern_eq code name df (Nat.le_of_not_lt hlen)] at h
    by_cases hc : 0 < limitUpCount df ∧ intervalIncrease df ≤ 1/2 ∧
        (ma 5 df > ma 10 df ∧ ma 10 df > ma 20 df) ∧ positionRank df ≤ 1/2
    · rw [if_pos hc] at h
      obtain ⟨-, -, -, h4⟩ := hc
      cases Option.some.inj h
      dsimp only
      exact ⟨by linarith, by linarith⟩
    · rw [if_neg hc] at h
      cases h
  · unfold positionRank
    rw [if_neg (not_not_intro heq)]
  · rw [checkTechnicalPattern_eq code name df h, if_neg]
    rintro ⟨-, -, -, hle⟩
    exact absurd hgt (not_lt.mpr hle)

set_option maxRecDepth 100000 in
unseal Rat.mul Rat.inv Rat.add Rat.sub in
/-- Witness for C6: the bounds at the scenario B hit, whose latest bar
is well formed. -/
theorem C6_witness :
    0 ≤ (ScreenHit.mk "600000" "B" 12 1 20 30).position_rank ∧
    (ScreenHit.mk "600000" "B" 12 1 20 30).position_rank ≤ 100 :=
  C6_position_rank_bounds.1 "600000" "B" scenarioB
    (ScreenHit.mk "600000" "B" 12 1 20 30) (by decide) (by decide) (by decide)

/-- Strict ascending-date comparison on daily bars. -/
def dateLt (a b : DailyBar) : Prop := a.date < b.date

instance : IsAntisymm DailyBar dateLt :=
  ⟨fun _ _ h1 h2 => absurd h2 (Nat.lt_asymm h1)⟩

/-- A date-sorted list with pairwise-distinct dates is strictly sorted
by date. -/
theorem sorted_dateLt_of_nodup {l : List DailyBar} (hsort : List.Sorted dateLe l)
    (hnodup : (l.map DailyBar.date).Nodup) : l.Pairwise dateLt :=
  ((List.pairwise_map.mp hnodup).and hsort).imp
    fun h => lt_of_le_of_ne h.2 h.1

/-- Sorting by date is permutation invariant when the dates are
pairwise distinct. -/
theorem sortedBars_eq_of_perm {df1 df2 : List DailyBar} (hp : df1.Perm df2)
    (hnd : (df1.map DailyBar.date).Nodup) :
    sortedBars df1 = sortedBars df2 := by
  have hp1 : (sortedBars df1).Perm df1 := List.perm_insertionSort dateLe df1
  have hp2 : (sortedBars df2).Perm df2 := List.perm_insertionSort dateLe df2
  have hperm : (sortedBars df1).Perm (sortedBars df2) :=
    hp1.trans (hp.trans hp2.symm)
  have hnd1 : ((sortedBars df1).map DailyBar.date).Nodup :=
    (hp1.map DailyBar.date).nodup_iff.mpr hnd
  have hnd2 : ((sortedBars df2).map DailyBar.date).Nodup :=
    (hperm.map DailyBar.date).nodup_iff.mp hnd1
  exact List.eq_of_perm_of_sorted hperm
    (sorted_dateLt_of_nodup (List.sorted_insertionSort dateLe df1) hnd1)
    (sorted_dateLt_of_nodup (List.sorted_insertionSort dateLe df2) hnd2)

/-- C10: the evaluator's result is invariant under any permutation of
the fetched bars when all bar dates are distinct, because the series
is sorted by ascending date before any signal is computed. -/
theorem C10_perm_invariant (code name : String) (df1 df2 : List DailyBar)
    (hp : df1.Perm df2) (hnd : (df1.map DailyBar.date).Nodup) :
    checkTechnicalPattern code name (some df1) =
      checkTechnicalPattern code name (some df2) := by
  have hs : sortedBars df1 = sortedBars df2 := sortedBars_eq_of_perm hp hnd
  have hlen : df1.length = df2.length := hp.length_eq
  have h60 : last60 df1 = last60 df2 := by
    unfold last60
    rw [hs]
  have hlu : limitUpCount df1 = limitUpCount df2 := by
    unfold limitUpCount
    rw [h60]
  have hlb : lastBar df1 = lastBar df2 := by
    unfold lastBar
    rw [hs]
  have hcc : currentClose df1 = currentClose df2 := by
    unfold currentClose
    rw [hlb]
  have hsc : startClose df1 = startClose df2 := by
    unfold startClose
    rw [h60]
  have hii : intervalIncrease df1 = intervalIncrease df2 := by
    unfold intervalIncrease
    rw [hcc, hsc]
  have hma : ∀ n, ma n df1 = ma n df2 := by
    intro n
    unfold ma
    rw [hs]
  have hyh : yearHigh df1 = yearHigh df2 := by
    unfold yearHigh
    rw [hs]
  have hyl : yearLow df1 = yearLow df2 := by
    unfold yearLow
    rw [hs]
  have hpr : positionRank df1 = positionRank df2 := by
    unfold positionRank
    rw [hyh, hyl, hcc]
  simp only [checkTechnicalPattern, hlen, hlu, hii, hma, hpr, hcc]

/-- An early bar used by the permutation witness. -/
def barEarly : DailyBar :=
  { date := 1, open_ := 1, high := 2, low := 1, close := 1, pct_chg := 0, volume := 0 }

/-- A later bar used by the permutation witness. -/
def barLate : DailyBar :=
  { date := 2, open_ := 2, high := 3, low := 2, close := 2, pct_chg := 1, volume := 0 }

/-- Witness for C10: swapping a two-bar series with distinct dates
leaves the evaluation unchanged. -/
theorem C10_witness :
    checkTechnicalPattern "600000" "P" (some [barEarly, barLate]) =
      checkTechnicalPattern "600000" "P" (some [barLate, barEarly]) :=
  C10_perm_invariant "600000" "P" [barEarly, barLate] [barLate, barEarly]
    (List.Perm.swap barLate barEarly []) (by decide)
